import Mathlib

/-!
Shallow embedding of `src/bin/resampler.py` (donmai-scripts).

The worker consumes SQS messages `md5,image_url`, downloads the image,
produces resized variants for the size targets 150 and 850, runs the
`guetzli` optimizer over each produced variant, uploads the 150 variant
via `scp` to every configured server and the 850 variant to S3, and
deletes the message only after all of that completed.

External collaborators (HTTP, PIL, jpegtran, guetzli, scp, S3, SQS) are
modelled as oracle fields of an `Env` record; the control flow around
them is translated line by line from the source.
-/

namespace Resampler

/-- Byte strings are modelled as lists of byte values. -/
abbrev Bytes := List Nat

/-- A decoded PIL image: its mode string (`"RGB"`, `"RGBA"`, `"L"`, ...),
its dimensions, and one flat buffer per channel (`Image.split()` order). -/
structure PILImage where
  mode : String
  width : Nat
  height : Nat
  channels : List (List Nat)
deriving DecidableEq, Repr

/-- Rounded fixed-point division by 255 as performed by PIL's `MULDIV255`
macro in `Paste.c`: `tmp = a*b + 128; ((tmp >> 8) + tmp) >> 8`. -/
def mulDiv255 (a b : Nat) : Nat :=
  let tmp := a * b + 128
  (tmp / 256 + tmp) / 256

/-- One output sample of PIL's `paste` with an 8-bit mask (`BLEND` macro):
the foreground weighted by the mask plus the background weighted by its
complement, each rounded by `mulDiv255`. This realises the over-compositing
formula `out = fg*alpha + bg*(1-alpha)` in 8-bit arithmetic. -/
def blend (m fg bg : Nat) : Nat :=
  mulDiv255 bg (255 - m) + mulDiv255 fg m

/-- Composite one colour channel `fg` over a constant background value `bg`
under the 8-bit mask `alpha`. -/
def compositeChannel (fg alpha : List Nat) (bg : Nat) : List Nat :=
  List.zipWith (fun f m => blend m f bg) fg alpha

/-- Translation of `pure_pil_alpha_to_color_v2` (resampler.py lines 20-39).
`image.split()` yields `image.channels`; with fewer than four channels the
image is returned unchanged. Otherwise a white `RGB` background of the same
size is created and the image is pasted onto it with the fourth channel as
mask. PIL's `paste` raises (`Except.error`) when the mask data does not
match the image size — this models the malformed-alpha failure mode; on
well-formed data it blends with `blend` per channel. -/
def pure_pil_alpha_to_color_v2 (image : PILImage) (color : Nat × Nat × Nat) :
    Except Unit PILImage :=
  if image.channels.length < 4 then
    Except.ok image
  else
    let alpha := image.channels.getD 3 []
    if alpha.length = image.width * image.height then
      let (r, gc, b) := color
      Except.ok
        { mode := "RGB", width := image.width, height := image.height,
          channels :=
            [compositeChannel (image.channels.getD 0 []) alpha r,
             compositeChannel (image.channels.getD 1 []) alpha gc,
             compositeChannel (image.channels.getD 2 []) alpha b] }
    else
      Except.error ()

/-- PIL's `Image.convert("RGB")` (called in `resize_general`, line 139):
produces a 3-channel `"RGB"` image of the same dimensions. Conversion from
an alpha-carrying mode (`RGBA`, `LA`) keeps the colour channels and
**discards** the alpha channel without compositing — PIL does not blend on
mode conversion. Single-channel modes are replicated across `R`, `G`, `B`. -/
def convertRGB (img : PILImage) : PILImage :=
  { mode := "RGB", width := img.width, height := img.height,
    channels :=
      match img.channels with
      | c0 :: c1 :: c2 :: _ => [c0, c1, c2]
      | c0 :: _ => [c0, c0, c0]
      | [] => [[], [], []] }

/-- The mode-normalisation prefix of `resize_general` (lines 138-141):
if the decoded image is not already `"RGB"`, convert it. -/
def convStep (img : PILImage) : PILImage :=
  if img.mode ≠ "RGB" then convertRGB img else img

/-- Translation of `scale_dim` (lines 41-67). Python's float division and
multiplication are modelled as exact rational arithmetic and `int(...)` of
the nonnegative results as the natural floor. -/
def scale_dim (w h max_size : Nat) : Nat × Nat :=
  let q : ℚ := if w > h then (max_size : ℚ) / (w : ℚ) else (max_size : ℚ) / (h : ℚ)
  (⌊q * (w : ℚ)⌋₊, ⌊q * (h : ℚ)⌋₊)

/-- Indices at which character `c` occurs in `cs`. -/
def charPositions (c : Char) (cs : List Char) : List Nat :=
  (List.range cs.length).filter (fun i => cs.get? i == some c)

/-- Model of Python's `os.path.splitext(p)[1]`: the suffix of the last path
component starting at its last dot, provided some earlier character of that
component is not a dot (so dotfiles like `.bashrc` have no extension). -/
def splitextExt (p : String) : String :=
  let base := (p.data.splitOn '/').getLastD []
  match (charPositions '.' base).getLast? with
  | none => ""
  | some i =>
    if (List.range i).any (fun j => base.get? j != some '.') then
      String.mk (base.drop i)
    else ("")

/-- ASCII lower-casing of one character, as Python's `str.lower()` acts on
the ASCII extensions involved here. -/
def asciiLower (c : Char) : Char :=
  if 'A' ≤ c ∧ c ≤ 'Z' then Char.ofNat (c.toNat + 32) else c

/-- ASCII lower-casing of a string (Python `str.lower()`). -/
def lowerStr (s : String) : String :=
  String.mk (s.data.map asciiLower)

/-- Model of Python's `str.split(",")`: split on every comma. -/
def pySplitComma (s : String) : List String :=
  (s.data.splitOn ',').map String.mk

/-- Outcome of `requests.get(url, stream=True)` followed by iterating
`iter_content`: either the connection fails outright, or a response with an
HTTP status code arrives whose body is streamed as chunks; `truncated`
records that the stream broke before completion (which makes
`iter_content` raise mid-iteration). -/
inductive NetOutcome where
  | netError : NetOutcome
  | response (status : Nat) (chunks : List Bytes) (truncated : Bool) : NetOutcome

/-- Result of one `guetzli` invocation (`call` at line 183): the process
exit code and the bytes the process left in the output file (empty or
partial when it failed; `call` never raises on a non-zero exit). -/
structure GuetzliRun where
  exitCode : Int
  output : Bytes
deriving DecidableEq, Repr

/-- Python exceptions that can escape the stages of one message's
processing. `unboundLocal` is the `UnboundLocalError` raised at line 181
when no branch of the extension dispatch assigned `resample`. -/
inductive PipeErr where
  | parseError : PipeErr
  | fetchNet : PipeErr
  | fetchTruncated : PipeErr
  | decodeError : PipeErr
  | pasteError : PipeErr
  | unboundLocal : PipeErr
  | s3Error : PipeErr
deriving DecidableEq, Repr

/-- The downloaded source resource: the bytes written to the temporary
file by `download_image`. -/
structure SourceFile where
  bytes : Bytes
deriving DecidableEq, Repr

/-- A resized, re-encoded (not yet optimized) image: dimensions chosen by
`scale_dim` and the encoded JPEG bytes in the temporary output file. -/
structure Resampled where
  width : Nat
  height : Nat
  bytes : Bytes
deriving DecidableEq, Repr

/-- The `(n, optimized)` pair returned by `generate`: the size target and
the bytes of the optimized output file. -/
structure Variant where
  size : Nat
  bytes : Bytes
deriving DecidableEq, Repr

/-- One SQS message as received by `process_queue`. -/
structure Message where
  body : String
  receiptHandle : String
deriving DecidableEq, Repr

/-- Durable side effects of processing one message. -/
inductive Effect where
  | scpCopy (host : String) (bytes : Bytes) (remotePath : String) : Effect
  | s3Put (bucket key acl : String) (body : Bytes) : Effect
  | deleteMessage (receiptHandle : String) : Effect
deriving DecidableEq, Repr

/-- Behaviour of all external collaborators, fixed for one run: the
configured server list, the HTTP layer, the two decoders, the two
resize-and-encode backends, the `guetzli` process, the per-host `scp`
exit codes, and the S3 `put_object` outcome. -/
structure Env where
  servers : List String
  http : String → NetOutcome
  decodeJpeg : Bytes → Option (Nat × Nat)
  decodePil : Bytes → Option PILImage
  jpegDownscaleSave : Bytes → Nat → Nat → Nat → Bytes
  pilResizeEncode : PILImage → Nat → Nat → Nat → Bytes
  guetzli : Bytes → GuetzliRun
  scpExit : String → String → Int
  s3PutResult : String → Bytes → Bool

/-- Translation of `download_image` (lines 69-89): stream the response
into a temporary file, skipping falsy (empty) chunks. The HTTP status code
of the response is never examined; a network-level failure or a truncated
stream raises, and any complete response yields the streamed bytes. -/
def download_image (env : Env) (url : String) : Except PipeErr SourceFile :=
  match env.http url with
  | NetOutcome.netError => Except.error PipeErr.fetchNet
  | NetOutcome.response _ chunks truncated =>
    if truncated then Except.error PipeErr.fetchTruncated
    else Except.ok ⟨chunks.foldl (fun acc c => if c = [] then acc else acc ++ c) []⟩

/-- Translation of `resize_jpg` (lines 91-116): decode with jpegtran
(raising on corrupt data), return `none` when the image already fits the
bound, otherwise downscale to the `scale_dim` dimensions at quality 90. -/
def resize_jpg (env : Env) (file : SourceFile) (n : Nat) :
    Except PipeErr (Option Resampled) :=
  match env.decodeJpeg file.bytes with
  | none => Except.error PipeErr.decodeError
  | some (w, h) =>
    if w > n ∨ h > n then
      Except.ok (some ⟨(scale_dim w h n).1, (scale_dim w h n).2,
        env.jpegDownscaleSave file.bytes (scale_dim w h n).1 (scale_dim w h n).2 90⟩)
    else
      Except.ok none

/-- Translation of `resize_general` (lines 118-150): decode with PIL,
convert to `"RGB"` when needed (`convStep`), run the alpha-composite
helper, return `none` when the image fits the bound, otherwise resize with
LANCZOS and save as JPEG at quality 90. -/
def resize_general (env : Env) (file : SourceFile) (n : Nat) :
    Except PipeErr (Option Resampled) :=
  match env.decodePil file.bytes with
  | none => Except.error PipeErr.decodeError
  | some img0 =>
    match pure_pil_alpha_to_color_v2 (convStep img0) (255, 255, 255) with
    | Except.error _ => Except.error PipeErr.pasteError
    | Except.ok img =>
      if img.width > n ∨ img.height > n then
        Except.ok (some ⟨(scale_dim img.width img.height n).1, (scale_dim img.width img.height n).2,
          env.pilResizeEncode img (scale_dim img.width img.height n).1
            (scale_dim img.width img.height n).2 90⟩)
      else
        Except.ok none

/-- The optimization step of `generate` (lines 182-185): an empty output
file is created, `guetzli` is invoked on the resampled bytes, and whatever
the process left in the output file is adopted. The exit code returned by
`call` is discarded; the resampled input file is closed. -/
def optimize (env : Env) (resampleBytes : Bytes) : Bytes :=
  (env.guetzli resampleBytes).output

/-- Translation of `generate` (lines 152-187): dispatch on the lowercased
extension of the URL; `.jpg` goes to `resize_jpg`, `.png` and `.gif` to
`resize_general`, and any other extension leaves the local variable
`resample` unassigned, so line 181 raises `UnboundLocalError`. A produced
resample is passed through the optimizer unconditionally. -/
def generate (env : Env) (url : String) (original : SourceFile) (n : Nat) :
    Except PipeErr (Option Variant) :=
  let ext := lowerStr (splitextExt url)
  let dispatch : Option (Except PipeErr (Option Resampled)) :=
    if ext = ".jpg" then some (resize_jpg env original n)
    else if ext = ".png" ∨ ext = ".gif" then some (resize_general env original n)
    else none
  match dispatch with
  | none => Except.error PipeErr.unboundLocal
  | some (Except.error e) => Except.error e
  | some (Except.ok none) => Except.ok none
  | some (Except.ok (some r)) => Except.ok (some ⟨n, optimize env r.bytes⟩)

/-- Translation of `download_and_generate` (lines 189-208): download once,
then generate for the widths `[150, 850]` in order; `map` evaluates
sequentially, so an exception in the first `generate` aborts the second. -/
def download_and_generate (env : Env) (url : String) :
    Except PipeErr (List (Option Variant)) := do
  let original ← download_image env url
  let v150 ← generate env url original 150
  let v850 ← generate env url original 850
  return [v150, v850]

/-- Translation of `upload` (lines 210-228): run `scp` of the variant to
the same remote path on every configured server. The exit codes of the
copies (second components) are computed and discarded, exactly as the
source discards the results of `call`; the function has no failure path. -/
def upload (env : Env) (bytes : Bytes) (remote_path : String) : List Effect :=
  (env.servers.map
    (fun s => (Effect.scpCopy s bytes remote_path, env.scpExit s remote_path))).map
    Prod.fst

/-- Translation of `upload_s3` (lines 230-251): put the bytes under the key
`sample/<remote_name>` in the `danbooru` bucket with `public-read` ACL;
`put_object` raises on a store-side error. -/
def upload_s3 (env : Env) (bytes : Bytes) (remote_name : String) :
    Except PipeErr Effect :=
  let key := "sample/" ++ remote_name
  if env.s3PutResult key bytes then
    Except.ok (Effect.s3Put ("danbooru") key ("public-read") bytes)
  else
    Except.error PipeErr.s3Error

/-- The upload loop of `process_queue` (lines 269-273): for each produced
variant, size 150 goes through the replicated `scp` copy and every other
size to S3. Effects accumulate in order until the first raise. -/
def uploadPaths (env : Env) (md5 : String) : List Variant → List Effect × Option PipeErr
  | [] => ([], none)
  | v :: rest =>
    if v.size = 150 then
      (upload env v.bytes ("/var/www/danbooru2/shared/data/preview/" ++ md5 ++ ".jpg") ++
        (uploadPaths env md5 rest).1, (uploadPaths env md5 rest).2)
    else
      match upload_s3 env v.bytes ("sample-" ++ md5 ++ ".jpg") with
      | Except.error e => ([], some e)
      | Except.ok eff =>
        (eff :: (uploadPaths env md5 rest).1, (uploadPaths env md5 rest).2)

/-- Processing of one received message inside `process_queue` (lines
266-274): unpack `md5,image_url` (raising `ValueError` unless the body has
exactly two comma-separated fields), download and generate, filter out the
`None` entries, upload each produced variant, and finally delete the
message. The returned pair is the ordered list of durable side effects and
the exception, if any, that aborted processing; the `delete_message` call
is only reached when every prior stage returned normally. -/
def processMessage (env : Env) (msg : Message) : List Effect × Option PipeErr :=
  match pySplitComma msg.body with
  | [md5, image_url] =>
    match download_and_generate env image_url with
    | Except.error e => ([], some e)
    | Except.ok paths =>
      match uploadPaths env md5 (paths.filterMap id) with
      | (effs, some e) => (effs, some e)
      | (effs, none) => (effs ++ [Effect.deleteMessage msg.receiptHandle], none)
  | _ => ([], some PipeErr.parseError)

/-- PIL invariant relating an image's mode to its band count: a decoded
`"RGB"` image has exactly three channels (`Image.split()` yields one band
per letter of the mode). -/
def EnvWF (env : Env) : Prop :=
  ∀ b img, env.decodePil b = some img → img.mode = "RGB" → img.channels.length = 3

/-- Dimensions the dispatch in `generate` would read for a given URL and
downloaded file: jpegtran's for `.jpg`, PIL's for `.png`/`.gif`. -/
def decodedDims (env : Env) (url : String) (file : SourceFile) : Option (Nat × Nat) :=
  let ext := lowerStr (splitextExt url)
  if ext = ".jpg" then env.decodeJpeg file.bytes
  else if ext = ".png" ∨ ext = ".gif" then
    (env.decodePil file.bytes).map (fun i => (i.width, i.height))
  else none

/-! ## Concrete scenarios used by witnesses and counterexamples -/

/-- A 500×400 RGB source image. -/
def imgBig : PILImage := ⟨"RGB", 500, 400, [[], [], []]⟩

/-- A 100×100 RGB source image that fits inside both size targets. -/
def imgSmall : PILImage := ⟨"RGB", 100, 100, [[], [], []]⟩

/-- A 1×1 RGBA image with a fully transparent grey pixel. -/
def imgAlpha : PILImage := ⟨"RGBA", 1, 1, [[100], [100], [100], [0]]⟩

/-- A 2×2 RGBA image whose alpha buffer is malformed (wrong length and an
out-of-range sample). -/
def imgBadAlpha : PILImage := ⟨"RGBA", 2, 2, [[1, 2, 3, 4], [1, 2, 3, 4], [1, 2, 3, 4], [7]]⟩

/-- A healthy external world: one server, a complete 200 response, a
decodable 500×400 image, deterministic encoders, a succeeding optimizer,
clean scp exits and a succeeding S3. -/
def baseEnv : Env :=
  { servers := ["h1"]
    http := fun _ => NetOutcome.response 200 [[1]] false
    decodeJpeg := fun _ => some (500, 400)
    decodePil := fun _ => some imgBig
    jpegDownscaleSave := fun _ _ _ _ => [3]
    pilResizeEncode := fun _ _ _ _ => [5]
    guetzli := fun _ => ⟨0, [6]⟩
    scpExit := fun _ _ => 0
    s3PutResult := fun _ _ => true }

/-- Like `baseEnv` but guetzli exits with status 1 leaving an empty output
file. -/
def envFailOpt : Env := { baseEnv with guetzli := fun _ => ⟨1, []⟩ }

/-- Like `baseEnv` but with two servers, the copy to `"h2"` exiting 1. -/
def envScpFail : Env :=
  { baseEnv with
    servers := ["h1", "h2"]
    scpExit := fun hst _ => if hst = "h2" then 1 else 0 }

/-- Like `baseEnv` but every request yields a complete 404 response. -/
def env404 : Env := { baseEnv with http := fun _ => NetOutcome.response 404 [[1], [2]] false }

/-- Like `baseEnv` but the source decodes to the small 100×100 image. -/
def envSmall : Env := { baseEnv with decodePil := fun _ => some imgSmall }

/-- Like `baseEnv` but the source decodes to the malformed-alpha image. -/
def envBadAlpha : Env := { baseEnv with decodePil := fun _ => some imgBadAlpha }

/-- A 2000×1000 RGB source image, exceeding both size targets. -/
def imgWide : PILImage := ⟨"RGB", 2000, 1000, [[], [], []]⟩

/-- Like `baseEnv` but the source decodes to the wide 2000×1000 image, so
both size targets produce variants. -/
def envWide : Env := { baseEnv with decodePil := fun _ => some imgWide }

/-- A queue message for a `.png` source. -/
def msgPng : Message := ⟨"m,http://e/a.png", "rh"⟩

/-- A queue message for a `.jpeg` source (unhandled extension). -/
def msgJpeg : Message := ⟨"m,http://e/a.jpeg", "rh"⟩

/-! ## Arithmetic of `scale_dim` -/

/-- Floor of `(a / b) * c` over ℚ is natural division `a * c / b`. -/
theorem floor_cast_div_mul (a b c : Nat) :
    ⌊((a : ℚ) / (b : ℚ)) * (c : ℚ)⌋₊ = a * c / b := by
  rw [div_mul_eq_mul_div, ← Nat.cast_mul, Nat.floor_div_eq_div]

/-- Both components of `scale_dim` are natural divisions by `max w h`:
the branch on `w > h` merely selects the larger dimension. -/
theorem scale_dim_eq (w h n : Nat) :
    scale_dim w h n = (n * w / max w h, n * h / max w h) := by
  rcases Nat.lt_or_ge h w with hw | hw
  · have hm : max w h = w := Nat.max_eq_left (Nat.le_of_lt hw)
    simp only [scale_dim, if_pos hw]
    rw [floor_cast_div_mul, floor_cast_div_mul, hm]
  · have hm : max w h = h := Nat.max_eq_right hw
    simp only [scale_dim, if_neg (Nat.not_lt.mpr hw)]
    rw [floor_cast_div_mul, floor_cast_div_mul, hm]

/-- C8: for all positive `w`, `h`, `n` the scale computation applies the
single proportion `n / max w h` to both axes and truncates: each component
is the floor of that proportion times its axis (so the aspect is preserved
within one unit of truncation error per axis), both components are bounded
by `n`, and `(2000, 1000, 850)` yields `(850, 425)`. -/
theorem scale_dim_bound_fit (w h n : Nat) (hw : 0 < w) (hh : 0 < h) (hn : 0 < n) :
    (scale_dim w h n).1 = n * w / max w h ∧
    (scale_dim w h n).2 = n * h / max w h ∧
    (scale_dim w h n).1 ≤ n ∧ (scale_dim w h n).2 ≤ n ∧
    ((scale_dim w h n).1 : ℚ) ≤ (n : ℚ) / ((max w h : Nat) : ℚ) * w ∧
    (n : ℚ) / ((max w h : Nat) : ℚ) * w < (scale_dim w h n).1 + 1 ∧
    ((scale_dim w h n).2 : ℚ) ≤ (n : ℚ) / ((max w h : Nat) : ℚ) * h ∧
    (n : ℚ) / ((max w h : Nat) : ℚ) * h < (scale_dim w h n).2 + 1 ∧
    scale_dim 2000 1000 850 = (850, 425) := by
  have hmax : 0 < max w h := lt_of_lt_of_le hw (le_max_left w h)
  have hmq : (0 : ℚ) < ((max w h : Nat) : ℚ) := by exact_mod_cast hmax
  have h1 : (scale_dim w h n).1 = n * w / max w h := by rw [scale_dim_eq]
  have h2 : (scale_dim w h n).2 = n * h / max w h := by rw [scale_dim_eq]
  have hf1 : (scale_dim w h n).1 = ⌊(n : ℚ) / ((max w h : Nat) : ℚ) * w⌋₊ := by
    rw [h1, floor_cast_div_mul]
  have hf2 : (scale_dim w h n).2 = ⌊(n : ℚ) / ((max w h : Nat) : ℚ) * h⌋₊ := by
    rw [h2, floor_cast_div_mul]
  have hwle : (w : ℚ) ≤ ((max w h : Nat) : ℚ) := by exact_mod_cast le_max_left w h
  have hhle : (h : ℚ) ≤ ((max w h : Nat) : ℚ) := by exact_mod_cast le_max_right w h
  have hq1 : (n : ℚ) / ((max w h : Nat) : ℚ) * w ≤ n := by
    have hstep : (n : ℚ) / ((max w h : Nat) : ℚ) * w ≤ (n : ℚ) / ((max w h : Nat) : ℚ) * ((max w h : Nat) : ℚ) :=
      mul_le_mul_of_nonneg_left hwle (by positivity)
    rwa [div_mul_cancel₀ (n : ℚ) (ne_of_gt hmq)] at hstep
  have hq2 : (n : ℚ) / ((max w h : Nat) : ℚ) * h ≤ n := by
    have hstep : (n : ℚ) / ((max w h : Nat) : ℚ) * h ≤ (n : ℚ) / ((max w h : Nat) : ℚ) * ((max w h : Nat) : ℚ) :=
      mul_le_mul_of_nonneg_left hhle (by positivity)
    rwa [div_mul_cancel₀ (n : ℚ) (ne_of_gt hmq)] at hstep
  refine ⟨h1, h2, ?_, ?_, ?_, ?_, ?_, ?_, ?_⟩
  · rw [hf1]
    calc ⌊(n : ℚ) / ((max w h : Nat) : ℚ) * w⌋₊ ≤ ⌊(n : ℚ)⌋₊ := Nat.floor_mono hq1
      _ = n := Nat.floor_natCast n
  · rw [hf2]
    calc ⌊(n : ℚ) / ((max w h : Nat) : ℚ) * h⌋₊ ≤ ⌊(n : ℚ)⌋₊ := Nat.floor_mono hq2
      _ = n := Nat.floor_natCast n
  · rw [hf1]
    exact Nat.floor_le (by positivity)
  · rw [hf1]
    exact Nat.lt_floor_add_one _
  · rw [hf2]
    exact Nat.floor_le (by positivity)
  · rw [hf2]
    exact Nat.lt_floor_add_one _
  · rw [scale_dim_eq]
    decide

/-- Witness for C8 at the spec's concrete scenario `(2000, 1000, 850)`. -/
theorem scale_dim_bound_fit_witness :
    (scale_dim 2000 1000 850).1 ≤ 850 ∧ scale_dim 2000 1000 850 = (850, 425) :=
  ⟨(scale_dim_bound_fit 2000 1000 850 (by decide) (by decide) (by decide)).2.2.1,
   (scale_dim_bound_fit 2000 1000 850 (by decide) (by decide) (by decide)).2.2.2.2.2.2.2.2⟩

/-! ## Structural lemmas about the pipeline -/

/-- String concatenation is associative. -/
theorem strAppend_assoc (a b c : String) : a ++ b ++ c = a ++ (b ++ c) := by
  rcases a with ⟨la⟩
  rcases b with ⟨lb⟩
  rcases c with ⟨lc⟩
  show String.mk (la ++ lb ++ lc) = String.mk (la ++ (lb ++ lc))
  rw [List.append_assoc]

/-- The replicated upload emits exactly one copy effect per configured
server; the discarded scp exit codes do not appear in the result. -/
theorem upload_eq_map (env : Env) (b : Bytes) (p : String) :
    upload env b p = env.servers.map (fun s => Effect.scpCopy s b p) := by
  unfold upload
  rw [List.map_map]
  rfl

/-- A successful S3 upload produces exactly the public-read put of the
given bytes under `sample/<remote_name>` in the `danbooru` bucket. -/
theorem upload_s3_ok_shape (env : Env) (b : Bytes) (rn : String) (eff : Effect)
    (h : upload_s3 env b rn = Except.ok eff) :
    eff = Effect.s3Put ("danbooru") ("sample/" ++ rn) ("public-read") b := by
  simp only [upload_s3] at h
  split at h
  · injection h with h
    exact h.symm
  · cases h

/-- The upload loop never emits a message deletion. -/
theorem uploadPaths_no_delete (env : Env) (md5 : String) (vs : List Variant) (hr : String) :
    Effect.deleteMessage hr ∉ (uploadPaths env md5 vs).1 := by
  induction vs with
  | nil => simp [uploadPaths]
  | cons v rest ih =>
    simp only [uploadPaths]
    split
    · intro hmem
      rcases List.mem_append.mp hmem with h1 | h2
      · rw [upload_eq_map] at h1
        rcases List.mem_map.mp h1 with ⟨s, _, hs⟩
        cases hs
      · exact ih h2
    · split
      · simp
      · next eff heq =>
        intro hmem
        rcases List.mem_cons.mp hmem with h1 | h2
        · rw [upload_s3_ok_shape env _ _ eff heq] at h1
          cases h1
        · exact ih h2

/-- Every copy effect the upload loop emits targets one of the configured
servers at the preview path derived from the content key. -/
theorem uploadPaths_scp_shape (env : Env) (md5 : String) (vs : List Variant)
    (hst : String) (b : Bytes) (p : String) :
    Effect.scpCopy hst b p ∈ (uploadPaths env md5 vs).1 →
    hst ∈ env.servers ∧ p = "/var/www/danbooru2/shared/data/preview/" ++ md5 ++ ".jpg" := by
  induction vs with
  | nil => simp [uploadPaths]
  | cons v rest ih =>
    simp only [uploadPaths]
    split
    · intro hmem
      rcases List.mem_append.mp hmem with h1 | h2
      · rw [upload_eq_map] at h1
        rcases List.mem_map.mp h1 with ⟨s, hs, heq⟩
        injection heq with e1 e2 e3
        exact ⟨e1 ▸ hs, e3.symm⟩
      · exact ih h2
    · split
      · simp
      · next eff heq =>
        intro hmem
        rcases List.mem_cons.mp hmem with h1 | h2
        · rw [upload_s3_ok_shape env _ _ eff heq] at h1
          cases h1
        · exact ih h2

/-- Every S3 effect the upload loop emits is the public-read put under the
sample key derived from the content key. -/
theorem uploadPaths_s3_shape (env : Env) (md5 : String) (vs : List Variant)
    (bu k a : String) (bo : Bytes) :
    Effect.s3Put bu k a bo ∈ (uploadPaths env md5 vs).1 →
    bu = "danbooru" ∧ k = "sample/" ++ ("sample-" ++ md5 ++ ".jpg") ∧ a = "public-read" := by
  induction vs with
  | nil => simp [uploadPaths]
  | cons v rest ih =>
    simp only [uploadPaths]
    split
    · intro hmem
      rcases List.mem_append.mp hmem with h1 | h2
      · rw [upload_eq_map] at h1
        rcases List.mem_map.mp h1 with ⟨s, _, hs⟩
        cases hs
      · exact ih h2
    · split
      · simp
      · next eff heq =>
        intro hmem
        rcases List.mem_cons.mp hmem with h1 | h2
        · rw [upload_s3_ok_shape env _ _ eff heq] at h1
          injection h1 with e1 e2 e3 e4
          exact ⟨e1, e2, e3⟩
        · exact ih h2

/-- When the first produced variant has size 150, its bytes are copied to
every configured server at the preview path. -/
theorem uploadPaths_head150 (env : Env) (md5 : String) (v : Variant) (rest : List Variant)
    (hv : v.size = 150) (hst : String) (hs : hst ∈ env.servers) :
    Effect.scpCopy hst v.bytes ("/var/www/danbooru2/shared/data/preview/" ++ md5 ++ ".jpg") ∈
      (uploadPaths env md5 (v :: rest)).1 := by
  simp only [uploadPaths, if_pos hv]
  apply List.mem_append.mpr
  left
  rw [upload_eq_map]
  exact List.mem_map.mpr ⟨hst, hs, rfl⟩

/-- Conversion always yields a three-channel image. -/
theorem convertRGB_length (img : PILImage) : (convertRGB img).channels.length = 3 := by
  rcases img with ⟨m, w, h, chans⟩
  rcases chans with _ | ⟨c0, _ | ⟨c1, _ | ⟨c2, rest⟩⟩⟩ <;> rfl

/-- After the mode-normalisation step a well-formed image has exactly
three channels. -/
theorem convStep_length (img : PILImage) (h : img.mode = "RGB" → img.channels.length = 3) :
    (convStep img).channels.length = 3 := by
  unfold convStep
  split
  · exact convertRGB_length img
  · next h2 => exact h (not_not.mp h2)

/-- The alpha-composite helper returns any image with fewer than four
channels unchanged. -/
theorem composite_three (img : PILImage) (h : img.channels.length < 4) (c : Nat × Nat × Nat) :
    pure_pil_alpha_to_color_v2 img c = Except.ok img := by
  unfold pure_pil_alpha_to_color_v2
  rw [if_pos h]

/-- Inside `resize_general` the composite step is the identity on the
already-converted buffer: the preceding mode conversion leaves at most
three channels, so the alpha branch is never taken. -/
theorem composite_convStep_id (img : PILImage) (h : img.mode = "RGB" → img.channels.length = 3) :
    pure_pil_alpha_to_color_v2 (convStep img) (255, 255, 255) = Except.ok (convStep img) :=
  composite_three _ (by rw [convStep_length img h]; decide) _

/-- Mode normalisation preserves the width. -/
theorem convStep_width (img : PILImage) : (convStep img).width = img.width := by
  unfold convStep convertRGB
  split <;> rfl

/-- Mode normalisation preserves the height. -/
theorem convStep_height (img : PILImage) : (convStep img).height = img.height := by
  unfold convStep convertRGB
  split <;> rfl

/-- Behaviour of `resize_general` on a decodable, well-formed source:
the bound check reads the original dimensions and the resample, if any,
uses the `scale_dim` dimensions of the normalised buffer. -/
theorem resize_general_decoded (env : Env) (file : SourceFile) (n : Nat) (img0 : PILImage)
    (hdec : env.decodePil file.bytes = some img0)
    (hwf : img0.mode = "RGB" → img0.channels.length = 3) :
    resize_general env file n =
      if img0.width > n ∨ img0.height > n then
        Except.ok (some ⟨(scale_dim img0.width img0.height n).1,
          (scale_dim img0.width img0.height n).2,
          env.pilResizeEncode (convStep img0) (scale_dim img0.width img0.height n).1
            (scale_dim img0.width img0.height n).2 90⟩)
      else Except.ok none := by
  simp only [resize_general, hdec, composite_convStep_id img0 hwf, convStep_width, convStep_height]

/-- Dispatch of `generate` for a `.jpg` URL. -/
theorem generate_ext_jpg (env : Env) (url : String) (file : SourceFile) (n : Nat)
    (h : lowerStr (splitextExt url) = ".jpg") :
    generate env url file n =
      match resize_jpg env file n with
      | Except.error e => Except.error e
      | Except.ok none => Except.ok none
      | Except.ok (some r) => Except.ok (some ⟨n, optimize env r.bytes⟩) := by
  simp only [generate]
  rw [if_pos h]
  cases hres : resize_jpg env file n with
  | error e => rfl
  | ok o => cases o with
    | none => rfl
    | some r => rfl

/-- Dispatch of `generate` for a `.png` or `.gif` URL. -/
theorem generate_ext_general (env : Env) (url : String) (file : SourceFile) (n : Nat)
    (h : lowerStr (splitextExt url) = ".png" ∨ lowerStr (splitextExt url) = ".gif") :
    generate env url file n =
      match resize_general env file n with
      | Except.error e => Except.error e
      | Except.ok none => Except.ok none
      | Except.ok (some r) => Except.ok (some ⟨n, optimize env r.bytes⟩) := by
  have hne : ¬ lowerStr (splitextExt url) = ".jpg" := by
    rcases h with h | h <;> rw [h] <;> decide
  simp only [generate]
  rw [if_neg hne, if_pos h]
  cases hres : resize_general env file n with
  | error e => rfl
  | ok o => cases o with
    | none => rfl
    | some r => rfl

/-- Dispatch of `generate` for any other extension: the local variable
`resample` is never assigned and line 181 raises `UnboundLocalError`. -/
theorem generate_ext_other (env : Env) (url : String) (file : SourceFile) (n : Nat)
    (h1 : ¬ lowerStr (splitextExt url) = ".jpg")
    (h2 : ¬ lowerStr (splitextExt url) = ".png")
    (h3 : ¬ lowerStr (splitextExt url) = ".gif") :
    generate env url file n = Except.error PipeErr.unboundLocal := by
  simp only [generate]
  rw [if_neg h1, if_neg (not_or.mpr ⟨h2, h3⟩)]

/-- A variant produced by `generate` carries the requested size target. -/
theorem generate_ok_size (env : Env) (url : String) (file : SourceFile) (n : Nat) (v : Variant)
    (h : generate env url file n = Except.ok (some v)) : v.size = n := by
  by_cases h1 : lowerStr (splitextExt url) = ".jpg"
  · rw [generate_ext_jpg env url file n h1] at h
    revert h
    cases resize_jpg env file n with
    | error e => intro h; cases h
    | ok o => cases o with
      | none =>
        intro h
        injection h with h
        cases h
      | some r =>
        intro h
        injection h with h
        injection h with h
        rw [← h]
  · by_cases h2 : lowerStr (splitextExt url) = ".png" ∨ lowerStr (splitextExt url) = ".gif"
    · rw [generate_ext_general env url file n h2] at h
      revert h
      cases resize_general env file n with
      | error e => intro h; cases h
      | ok o => cases o with
        | none =>
          intro h
          injection h with h
          cases h
        | some r =>
          intro h
          injection h with h
          injection h with h
          rw [← h]
    · rw [not_or] at h2
      rw [generate_ext_other env url file n h1 h2.1 h2.2] at h
      cases h

/-- Bind of a successful `Except` computation beta-reduces. -/
theorem exceptBind_ok {ε α β : Type} (a : α) (f : α → Except ε β) :
    ((Except.ok a : Except ε α) >>= f) = f a := rfl

/-- With a successful download, `download_and_generate` is the sequential
composition of the two `generate` calls on the downloaded file. -/
theorem download_and_generate_ok (env : Env) (url : String) (file : SourceFile)
    (hdl : download_image env url = Except.ok file) :
    download_and_generate env url =
      match generate env url file 150 with
      | Except.error e => Except.error e
      | Except.ok v150 =>
        match generate env url file 850 with
        | Except.error e => Except.error e
        | Except.ok v850 => Except.ok [v150, v850] := by
  simp only [download_and_generate, hdl, exceptBind_ok]
  cases h150 : generate env url file 150 with
  | error e => rfl
  | ok v150 =>
    cases h850 : generate env url file 850 with
    | error e => rfl
    | ok v850 => rfl

/-- Processing a well-formed message body reduces to the generation and
upload stages for its two fields. -/
theorem processMessage_parsed (env : Env) (msg : Message) (md5 url : String)
    (hsplit : pySplitComma msg.body = [md5, url]) :
    processMessage env msg =
      match download_and_generate env url with
      | Except.error e => ([], some e)
      | Except.ok paths =>
        match uploadPaths env md5 (paths.filterMap id) with
        | (effs, some e) => (effs, some e)
        | (effs, none) => (effs ++ [Effect.deleteMessage msg.receiptHandle], none) := by
  simp only [processMessage, hsplit]

/-- If no queued variant has size 150, the upload loop emits no scp copy. -/
theorem uploadPaths_no_scp (env : Env) (md5 : String) (vs : List Variant)
    (hst : String) (b : Bytes) (p : String) :
    (∀ v ∈ vs, v.size ≠ 150) → Effect.scpCopy hst b p ∉ (uploadPaths env md5 vs).1 := by
  induction vs with
  | nil =>
    intro _
    simp [uploadPaths]
  | cons v rest ih =>
    intro hvs
    simp only [uploadPaths, if_neg (hvs v (List.mem_cons_self v rest))]
    split
    · simp
    · next eff heq =>
      intro hmem
      rcases List.mem_cons.mp hmem with h1 | h2
      · rw [upload_s3_ok_shape env _ _ eff heq] at h1
        cases h1
      · exact ih (fun u hu => hvs u (List.mem_cons_of_mem v hu)) h2

/-- If every queued variant has size 150, the upload loop emits no S3 put. -/
theorem uploadPaths_no_s3 (env : Env) (md5 : String) (vs : List Variant)
    (bu k a : String) (bo : Bytes) :
    (∀ v ∈ vs, v.size = 150) → Effect.s3Put bu k a bo ∉ (uploadPaths env md5 vs).1 := by
  induction vs with
  | nil =>
    intro _
    simp [uploadPaths]
  | cons v rest ih =>
    intro hvs
    simp only [uploadPaths, if_pos (hvs v (List.mem_cons_self v rest))]
    intro hmem
    rcases List.mem_append.mp hmem with h1 | h2
    · rw [upload_eq_map] at h1
      rcases List.mem_map.mp h1 with ⟨s, _, hs⟩
      cases hs
    · exact ih (fun u hu => hvs u (List.mem_cons_of_mem v hu)) h2

/-- If `generate` returned normally for one size target, it also returns
normally (variant or absent) for any other size target on the same file:
the extension dispatch and the decoders do not depend on the bound. -/
theorem generate_ok_other_size (env : Env) (url : String) (file : SourceFile) (n m : Nat)
    (o : Option Variant) (h : generate env url file n = Except.ok o) :
    ∃ o2, generate env url file m = Except.ok o2 := by
  by_cases h1 : lowerStr (splitextExt url) = ".jpg"
  · rw [generate_ext_jpg env url file n h1] at h
    rw [generate_ext_jpg env url file m h1]
    cases hdec : env.decodeJpeg file.bytes with
    | none =>
      rw [show resize_jpg env file n = Except.error PipeErr.decodeError by
        simp [resize_jpg, hdec]] at h
      cases h
    | some wh =>
      rcases wh with ⟨w, hh⟩
      simp only [resize_jpg, hdec]
      by_cases hb : w > m ∨ hh > m
      · rw [if_pos hb]
        exact ⟨_, rfl⟩
      · rw [if_neg hb]
        exact ⟨none, rfl⟩
  · by_cases h2 : lowerStr (splitextExt url) = ".png" ∨ lowerStr (splitextExt url) = ".gif"
    · rw [generate_ext_general env url file n h2] at h
      rw [generate_ext_general env url file m h2]
      cases hdec : env.decodePil file.bytes with
      | none =>
        rw [show resize_general env file n = Except.error PipeErr.decodeError by
          simp [resize_general, hdec]] at h
        cases h
      | some img0 =>
        cases hcomp : pure_pil_alpha_to_color_v2 (convStep img0) (255, 255, 255) with
        | error u =>
          rw [show resize_general env file n = Except.error PipeErr.pasteError by
            simp [resize_general, hdec, hcomp]] at h
          cases h
        | ok img =>
          simp only [resize_general, hdec, hcomp]
          by_cases hb : img.width > m ∨ img.height > m
          · rw [if_pos hb]
            exact ⟨_, rfl⟩
          · rw [if_neg hb]
            exact ⟨none, rfl⟩
    · rw [not_or] at h2
      rw [generate_ext_other env url file n h1 h2.1 h2.2] at h
      cases h

/-- A failed download-and-generate stage propagates as the message's
error, with no effects emitted. -/
theorem processMessage_dag_error (env : Env) (msg : Message) (md5 url : String) (e : PipeErr)
    (hsplit : pySplitComma msg.body = [md5, url])
    (hdag : download_and_generate env url = Except.error e) :
    processMessage env msg = ([], some e) := by
  simp only [processMessage, hsplit, hdag]

/-- A successful download-and-generate stage hands the produced variants
to the upload loop. -/
theorem processMessage_dag_ok (env : Env) (msg : Message) (md5 url : String)
    (paths : List (Option Variant))
    (hsplit : pySplitComma msg.body = [md5, url])
    (hdag : download_and_generate env url = Except.ok paths) :
    processMessage env msg =
      match uploadPaths env md5 (paths.filterMap id) with
      | (effs, some e) => (effs, some e)
      | (effs, none) => (effs ++ [Effect.deleteMessage msg.receiptHandle], none) := by
  simp only [processMessage, hsplit, hdag]

/-- An environment whose decoder returns a fixed well-formed image
satisfies the PIL mode invariant. -/
theorem envWF_of_const (im : PILImage) (h3 : im.mode = "RGB" → im.channels.length = 3)
    (env : Env) (henv : ∀ b, env.decodePil b = some im) : EnvWF env := by
  intro b img h hm
  rw [henv b] at h
  injection h with h
  rw [← h] at hm ⊢
  exact h3 hm

/-! ## Claims -/

/-- C2: for every received queue message, the deletion (acknowledgment) is
emitted only as the final effect of a fully successful run — after every
upload for that message — and when any stage fails no deletion is emitted,
leaving the message unacknowledged. -/
theorem message_deleted_only_after_success (env : Env) (msg : Message) :
    ((processMessage env msg).2 = none →
      ∃ pre, (processMessage env msg).1 = pre ++ [Effect.deleteMessage msg.receiptHandle] ∧
        ∀ hr, Effect.deleteMessage hr ∉ pre) ∧
    ((processMessage env msg).2 ≠ none →
      ∀ hr, Effect.deleteMessage hr ∉ (processMessage env msg).1) := by
  have hparse : ∀ l, pySplitComma msg.body = l →
      (∀ a b t2, l ≠ a :: b :: t2) →
      processMessage env msg = ([], some PipeErr.parseError) := by
    intro l hsplit hshape
    cases l with
    | nil => simp only [processMessage, hsplit]
    | cons a t =>
      cases t with
      | nil => simp only [processMessage, hsplit]
      | cons b t2 => exact absurd rfl (hshape a b t2)
  cases hsplit : pySplitComma msg.body with
  | nil =>
    rw [hparse [] hsplit (by intro a b t2 h; simp at h)]
    exact ⟨fun h => absurd h (by simp), fun _ hr hmem => by cases hmem⟩
  | cons a t =>
    cases t with
    | nil =>
      rw [hparse [a] hsplit (by intro x b t2 h; simp at h)]
      exact ⟨fun h => absurd h (by simp), fun _ hr hmem => by cases hmem⟩
    | cons b t2 =>
      cases t2 with
      | cons c t3 =>
        have hpm : processMessage env msg = ([], some PipeErr.parseError) := by
          simp only [processMessage, hsplit]
        rw [hpm]
        exact ⟨fun h => absurd h (by simp), fun _ hr hmem => by cases hmem⟩
      | nil =>
        cases hdag : download_and_generate env b with
        | error e =>
          rw [processMessage_dag_error env msg a b e hsplit hdag]
          exact ⟨fun h => absurd h (by simp), fun _ hr hmem => by cases hmem⟩
        | ok paths =>
          rw [processMessage_dag_ok env msg a b paths hsplit hdag]
          cases hup : uploadPaths env a (paths.filterMap id) with
          | mk effs err =>
            have hnd : ∀ hr, Effect.deleteMessage hr ∉ effs := by
              intro hr
              have h0 := uploadPaths_no_delete env a (paths.filterMap id) hr
              rw [hup] at h0
              exact h0
            cases err with
            | none =>
              exact ⟨fun _ => ⟨effs, rfl, hnd⟩, fun hcon => ((hcon rfl)).elim⟩
            | some e =>
              exact ⟨fun h => absurd h (by simp), fun _ hr hmem => hnd hr hmem⟩

/-- Witness for C2: a fully successful concrete run is acknowledged by a
single, final deletion. -/
theorem message_deleted_only_after_success_witness :
    ∃ pre, (processMessage baseEnv msgPng).1 = pre ++ [Effect.deleteMessage (msgPng.receiptHandle)] ∧
      ∀ hr, Effect.deleteMessage hr ∉ pre :=
  (message_deleted_only_after_success baseEnv msgPng).1 (by decide)

/-- C10: for a URL whose lowercased extension is none of `.jpg`, `.png`,
`.gif`, the generate step raises `UnboundLocalError` instead of returning
a variant or an absent result; after a successful download the message
processing therefore ends in that error and no deletion is emitted. -/
theorem unhandled_extension_unbound :
    (∀ env url file n, lowerStr (splitextExt url) ∉ ([".jpg", ".png", ".gif"] : List String) →
      generate env url file n = Except.error PipeErr.unboundLocal) ∧
    (∀ env msg md5 url file, pySplitComma msg.body = [md5, url] →
      download_image env url = Except.ok file →
      lowerStr (splitextExt url) ∉ ([".jpg", ".png", ".gif"] : List String) →
      (processMessage env msg).2 = some PipeErr.unboundLocal ∧
        ∀ hr, Effect.deleteMessage hr ∉ (processMessage env msg).1) := by
  have hgen : ∀ (env : Env) url (file : SourceFile) n,
      lowerStr (splitextExt url) ∉ ([".jpg", ".png", ".gif"] : List String) →
      generate env url file n = Except.error PipeErr.unboundLocal := by
    intro env url file n h
    simp only [List.mem_cons, List.not_mem_nil, or_false, not_or] at h
    exact generate_ext_other env url file n h.1 h.2.1 h.2.2
  refine ⟨hgen, ?_⟩
  intro env msg md5 url file hsplit hdl hext
  rw [processMessage_parsed env msg md5 url hsplit,
    download_and_generate_ok env url file hdl,
    hgen env url file 150 hext]
  exact ⟨rfl, fun hr hmem => by cases hmem⟩

/-- Witness for C10 at a `.jpeg` URL. -/
theorem unhandled_extension_unbound_witness :
    generate baseEnv ("http://e/a.jpeg") (⟨[1]⟩ : SourceFile) 150 =
      Except.error PipeErr.unboundLocal ∧
    (processMessage baseEnv msgJpeg).2 = some PipeErr.unboundLocal ∧
    ∀ hr, Effect.deleteMessage hr ∉ (processMessage baseEnv msgJpeg).1 :=
  ⟨(unhandled_extension_unbound).1 baseEnv ("http://e/a.jpeg") ⟨[1]⟩ 150 (by decide),
   (unhandled_extension_unbound).2 baseEnv msgJpeg ("m") ("http://e/a.jpeg") ⟨[1]⟩
     (by decide) (by rfl) (by decide)⟩

/-- C7: when the decoded dimensions already fit within the size target,
variant generation returns absent; and for a message whose 150 (resp. 850)
generation is absent, the processing trace contains no scp copy (resp. no
S3 put) — the upload for that size target is skipped entirely. -/
theorem small_source_absent :
    (∀ env url file n w h, EnvWF env → decodedDims env url file = some (w, h) →
      w ≤ n → h ≤ n → generate env url file n = Except.ok none) ∧
    (∀ env msg md5 url file, pySplitComma msg.body = [md5, url] →
      download_image env url = Except.ok file →
      generate env url file 150 = Except.ok none →
      ∀ hst b p, Effect.scpCopy hst b p ∉ (processMessage env msg).1) ∧
    (∀ env msg md5 url file, pySplitComma msg.body = [md5, url] →
      download_image env url = Except.ok file →
      generate env url file 850 = Except.ok none →
      ∀ bu k a bo, Effect.s3Put bu k a bo ∉ (processMessage env msg).1) := by
  refine ⟨?_, ?_, ?_⟩
  · intro env url file n w h hwf hdims hw hh
    simp only [decodedDims] at hdims
    split at hdims
    · next hext =>
      rw [generate_ext_jpg env url file n hext]
      simp only [resize_jpg, hdims]
      rw [if_neg (by omega : ¬(w > n ∨ h > n))]
    · next hext1 =>
      split at hdims
      · next hext2 =>
        rcases Option.map_eq_some'.mp hdims with ⟨img0, hdec, himg⟩
        have himg2 : (img0.width, img0.height) = (w, h) := himg
        injection himg2 with e1 e2
        rw [generate_ext_general env url file n hext2]
        rw [resize_general_decoded env file n img0 hdec (hwf file.bytes img0 hdec)]
        rw [if_neg (by omega : ¬(img0.width > n ∨ img0.height > n))]
      · exact absurd hdims (by simp)
  · intro env msg md5 url file hsplit hdl hg150 hst b p
    cases hg850 : generate env url file 850 with
    | error e =>
      have hdag : download_and_generate env url = Except.error e := by
        rw [download_and_generate_ok env url file hdl, hg150, hg850]
      rw [processMessage_dag_error env msg md5 url e hsplit hdag]
      intro hmem
      cases hmem
    | ok v850 =>
      have hdag : download_and_generate env url = Except.ok [none, v850] := by
        rw [download_and_generate_ok env url file hdl, hg150, hg850]
      rw [processMessage_dag_ok env msg md5 url [none, v850] hsplit hdag]
      have hL : ∀ v ∈ (([none, v850] : List (Option Variant)).filterMap id), v.size ≠ 150 := by
        intro v hv
        cases v850 with
        | none => simp at hv
        | some u =>
          simp at hv
          rw [hv]
          have hu := generate_ok_size env url file 850 u hg850
          omega
      have hnos := uploadPaths_no_scp env md5
        (([none, v850] : List (Option Variant)).filterMap id) hst b p hL
      cases hup : uploadPaths env md5 (([none, v850] : List (Option Variant)).filterMap id) with
      | mk effs err =>
        rw [hup] at hnos
        cases err with
        | some e =>
          intro hmem
          exact hnos hmem
        | none =>
          intro hmem
          rcases List.mem_append.mp hmem with h1 | h2
          · exact hnos h1
          · rcases List.mem_cons.mp h2 with h3 | h4
            · cases h3
            · cases h4
  · intro env msg md5 url file hsplit hdl hg850 bu k a bo
    cases hg150 : generate env url file 150 with
    | error e =>
      have hdag : download_and_generate env url = Except.error e := by
        rw [download_and_generate_ok env url file hdl, hg150]
      rw [processMessage_dag_error env msg md5 url e hsplit hdag]
      intro hmem
      cases hmem
    | ok v150 =>
      have hdag : download_and_generate env url = Except.ok [v150, none] := by
        rw [download_and_generate_ok env url file hdl, hg150, hg850]
      rw [processMessage_dag_ok env msg md5 url [v150, none] hsplit hdag]
      have hL : ∀ v ∈ (([v150, none] : List (Option Variant)).filterMap id), v.size = 150 := by
        intro v hv
        cases v150 with
        | none => simp at hv
        | some u =>
          simp at hv
          rw [hv]
          exact generate_ok_size env url file 150 u hg150
      have hnos := uploadPaths_no_s3 env md5
        (([v150, none] : List (Option Variant)).filterMap id) bu k a bo hL
      cases hup : uploadPaths env md5 (([v150, none] : List (Option Variant)).filterMap id) with
      | mk effs err =>
        rw [hup] at hnos
        cases err with
        | some e =>
          intro hmem
          exact hnos hmem
        | none =>
          intro hmem
          rcases List.mem_append.mp hmem with h1 | h2
          · exact hnos h1
          · rcases List.mem_cons.mp h2 with h3 | h4
            · cases h3
            · cases h4

/-- Witness for C7: a 100×100 source against the 150 target yields absent
and its processing trace contains no scp copy. -/
theorem small_source_absent_witness :
    generate envSmall ("http://e/a.png") (⟨[1]⟩ : SourceFile) 150 = Except.ok none ∧
    ∀ hst b p, Effect.scpCopy hst b p ∉ (processMessage envSmall msgPng).1 :=
  ⟨(small_source_absent).1 envSmall ("http://e/a.png") ⟨[1]⟩ 150 100 100
     (envWF_of_const imgSmall (by decide) envSmall (fun b => rfl)) (by rfl) (by decide) (by decide),
   (small_source_absent).2.1 envSmall msgPng ("m") ("http://e/a.png") ⟨[1]⟩
     (by decide) (by rfl) (by rfl)⟩

/-- When the first queued variant is not of size 150 and the store accepts
the put, its bytes are put under the sample key. -/
theorem uploadPaths_s3_mem (env : Env) (md5 : String) (v : Variant) (hv : v.size ≠ 150)
    (hs3 : env.s3PutResult ("sample/" ++ ("sample-" ++ md5 ++ ".jpg")) v.bytes = true)
    (rest : List Variant) :
    Effect.s3Put ("danbooru") ("sample/" ++ ("sample-" ++ md5 ++ ".jpg")) ("public-read")
        v.bytes ∈ (uploadPaths env md5 (v :: rest)).1 := by
  have hok : upload_s3 env v.bytes ("sample-" ++ md5 ++ ".jpg") =
      Except.ok (Effect.s3Put ("danbooru") ("sample/" ++ ("sample-" ++ md5 ++ ".jpg"))
        ("public-read") v.bytes) := by
    simp only [upload_s3]
    rw [if_pos hs3]
  simp only [uploadPaths, if_neg hv, hok]
  exact List.mem_cons_self _ _

/-- A size-150 variant at the head of the queue never aborts the upload
loop: effects of the tail remain in the trace. -/
theorem uploadPaths_cons150_mem (env : Env) (md5 : String) (u : Variant) (hu : u.size = 150)
    (rest : List Variant) (e : Effect) (h : e ∈ (uploadPaths env md5 rest).1) :
    e ∈ (uploadPaths env md5 (u :: rest)).1 := by
  simp only [uploadPaths, if_pos hu]
  exact List.mem_append.mpr (Or.inr h)

/-- C9: every copy effect of a message goes to a configured host at the
preview path determined by the content key alone, every S3 effect is the
public-read put under the sample key determined by the content key alone,
a produced size-150 variant is copied to every configured host, and a
produced size-850 variant is put to the store under the sample key (when
the store accepts the put). -/
theorem destinations_by_size :
    (∀ env msg md5 url, pySplitComma msg.body = [md5, url] →
      (∀ hst b p, Effect.scpCopy hst b p ∈ (processMessage env msg).1 →
        hst ∈ env.servers ∧
          p = "/var/www/danbooru2/shared/data/preview/" ++ md5 ++ ".jpg") ∧
      (∀ bu k a bo, Effect.s3Put bu k a bo ∈ (processMessage env msg).1 →
        bu = "danbooru" ∧ k = "sample/sample-" ++ md5 ++ ".jpg" ∧ a = "public-read")) ∧
    (∀ env msg md5 url file v, pySplitComma msg.body = [md5, url] →
      download_image env url = Except.ok file →
      generate env url file 150 = Except.ok (some v) →
      ∀ hst, hst ∈ env.servers →
        Effect.scpCopy hst v.bytes ("/var/www/danbooru2/shared/data/preview/" ++ md5 ++ ".jpg") ∈
          (processMessage env msg).1) ∧
    (∀ env msg md5 url file v, pySplitComma msg.body = [md5, url] →
      download_image env url = Except.ok file →
      generate env url file 850 = Except.ok (some v) →
      env.s3PutResult ("sample/" ++ ("sample-" ++ md5 ++ ".jpg")) v.bytes = true →
      Effect.s3Put ("danbooru") ("sample/sample-" ++ md5 ++ ".jpg") ("public-read") v.bytes ∈
        (processMessage env msg).1) := by
  have hkey : ∀ md5 : String,
      ("sample/" : String) ++ ("sample-" ++ md5 ++ ".jpg") = "sample/sample-" ++ md5 ++ ".jpg" := by
    intro md5
    rw [← strAppend_assoc, ← strAppend_assoc]
    have hfuse : ("sample/" : String) ++ "sample-" = "sample/sample-" := by decide
    rw [hfuse]
  refine ⟨?_, ?_, ?_⟩
  · intro env msg md5 url hsplit
    cases hdag : download_and_generate env url with
    | error e =>
      rw [processMessage_dag_error env msg md5 url e hsplit hdag]
      exact ⟨(fun hst b p hmem => by cases hmem), (fun bu k a bo hmem => by cases hmem)⟩
    | ok paths =>
      rw [processMessage_dag_ok env msg md5 url paths hsplit hdag]
      cases hup : uploadPaths env md5 (paths.filterMap id) with
      | mk effs err =>
        have hscp : ∀ hst b p, Effect.scpCopy hst b p ∈ effs →
            hst ∈ env.servers ∧
              p = "/var/www/danbooru2/shared/data/preview/" ++ md5 ++ ".jpg" := by
          intro hst b p hm
          have h0 := uploadPaths_scp_shape env md5 (paths.filterMap id) hst b p
          rw [hup] at h0
          exact h0 hm
        have hs3 : ∀ bu k a bo, Effect.s3Put bu k a bo ∈ effs →
            bu = "danbooru" ∧ k = "sample/sample-" ++ md5 ++ ".jpg" ∧ a = "public-read" := by
          intro bu k a bo hm
          have h0 := uploadPaths_s3_shape env md5 (paths.filterMap id) bu k a bo
          rw [hup] at h0
          rcases h0 hm with ⟨e1, e2, e3⟩
          refine ⟨e1, ?_, e3⟩
          rw [e2]
          exact hkey md5
        cases err with
        | some e =>
          exact ⟨fun hst b p hmem => hscp hst b p hmem,
            fun bu k a bo hmem => hs3 bu k a bo hmem⟩
        | none =>
          constructor
          · intro hst b p hmem
            rcases List.mem_append.mp hmem with h1 | h2
            · exact hscp hst b p h1
            · rcases List.mem_cons.mp h2 with h3 | h4
              · cases h3
              · cases h4
          · intro bu k a bo hmem
            rcases List.mem_append.mp hmem with h1 | h2
            · exact hs3 bu k a bo h1
            · rcases List.mem_cons.mp h2 with h3 | h4
              · cases h3
              · cases h4
  · intro env msg md5 url file v hsplit hdl hg150 hst hs
    have hv : v.size = 150 := generate_ok_size env url file 150 v hg150
    cases hg850 : generate env url file 850 with
    | error e =>
      rcases generate_ok_other_size env url file 150 850 (some v) hg150 with ⟨o2, ho2⟩
      rw [ho2] at hg850
      cases hg850
    | ok v850 =>
      have hdag : download_and_generate env url = Except.ok [some v, v850] := by
        rw [download_and_generate_ok env url file hdl, hg150, hg850]
      rw [processMessage_dag_ok env msg md5 url [some v, v850] hsplit hdag]
      have hfm : ([some v, v850] : List (Option Variant)).filterMap id =
          v :: (([v850] : List (Option Variant)).filterMap id) := by
        simp
      have hmem0 := uploadPaths_head150 env md5 v
        (([v850] : List (Option Variant)).filterMap id) hv hst hs
      rw [← hfm] at hmem0
      cases hup : uploadPaths env md5 (([some v, v850] : List (Option Variant)).filterMap id) with
      | mk effs err =>
        rw [hup] at hmem0
        cases err with
        | some e => exact hmem0
        | none => exact List.mem_append.mpr (Or.inl hmem0)
  · intro env msg md5 url file v hsplit hdl hg850 hs3
    have hv850 : v.size = 850 := generate_ok_size env url file 850 v hg850
    have hvne : v.size ≠ 150 := by omega
    cases hg150 : generate env url file 150 with
    | error e =>
      rcases generate_ok_other_size env url file 850 150 (some v) hg850 with ⟨o2, ho2⟩
      rw [ho2] at hg150
      cases hg150
    | ok v150 =>
      have hdag : download_and_generate env url = Except.ok [v150, some v] := by
        rw [download_and_generate_ok env url file hdl, hg150, hg850]
      rw [processMessage_dag_ok env msg md5 url [v150, some v] hsplit hdag]
      have hmemv := uploadPaths_s3_mem env md5 v hvne hs3 []
      have hmemL : Effect.s3Put ("danbooru") ("sample/" ++ ("sample-" ++ md5 ++ ".jpg"))
          ("public-read") v.bytes ∈
            (uploadPaths env md5 (([v150, some v] : List (Option Variant)).filterMap id)).1 := by
        cases v150 with
        | none =>
          have hfm : ([none, some v] : List (Option Variant)).filterMap id = [v] := by simp
          rw [hfm]
          exact hmemv
        | some u =>
          have hu : u.size = 150 := generate_ok_size env url file 150 u hg150
          have hfm : ([some u, some v] : List (Option Variant)).filterMap id = u :: [v] := by
            simp
          rw [hfm]
          exact uploadPaths_cons150_mem env md5 u hu [v] _ hmemv
      rw [hkey md5] at hmemL
      cases hup : uploadPaths env md5 (([v150, some v] : List (Option Variant)).filterMap id) with
      | mk effs err =>
        rw [hup] at hmemL
        cases err with
        | some e => exact hmemL
        | none => exact List.mem_append.mpr (Or.inl hmemL)

/-- Witness for C9: the concrete 2000×1000 run copies the produced 150
variant to the configured host at the preview path for content key `m`
and puts the produced 850 variant under the sample key. -/
theorem destinations_by_size_witness :
    Effect.scpCopy ("h1") ([6] : Bytes)
        ("/var/www/danbooru2/shared/data/preview/" ++ ("m") ++ ".jpg") ∈
      (processMessage envWide msgPng).1 ∧
    Effect.s3Put ("danbooru") ("sample/sample-" ++ ("m") ++ ".jpg") ("public-read")
        ([6] : Bytes) ∈ (processMessage envWide msgPng).1 :=
  ⟨(destinations_by_size).2.1 envWide msgPng ("m") ("http://e/a.png") ⟨[1]⟩ ⟨150, [6]⟩
     (by decide) (by rfl) (by rfl) ("h1") (by decide),
   (destinations_by_size).2.2 envWide msgPng ("m") ("http://e/a.png") ⟨[1]⟩ ⟨850, [6]⟩
     (by decide) (by rfl) (by rfl) (by rfl)⟩

/-- C1 counterexample: with guetzli exiting 1 and leaving an empty output
file, the resampled (pre-optimization) bytes are `[5]`, yet `generate`
returns the empty optimizer output — not bytes identical to the input —
and those empty bytes are what gets uploaded. -/
theorem optimizer_failure_output_adopted_cex :
    (envFailOpt.guetzli [5]).exitCode = 1 ∧
    (resize_general envFailOpt ⟨[1]⟩ 150).map (Option.map Resampled.bytes) =
      Except.ok (some [5]) ∧
    generate envFailOpt ("http://e/a.png") ⟨[1]⟩ 150 = Except.ok (some ⟨150, []⟩) ∧
    (([] : Bytes) = [5] → False) ∧
    Effect.scpCopy ("h1") ([] : Bytes) ("/var/www/danbooru2/shared/data/preview/m.jpg") ∈
      (processMessage envFailOpt msgPng).1 :=
  ⟨by decide, by rfl, by rfl, by decide, by decide⟩

/-- C1 amended: whenever a resample is produced, `generate` returns the
contents of the optimizer's output file as the variant regardless of the
exit status (the exit code is never examined, so the step cannot fail the
job), and the whole generation result is invariant under any change of the
optimizer's exit codes that keeps its output bytes. -/
theorem optimize_adopts_output :
    (∀ env url file n r, lowerStr (splitextExt url) = ".jpg" →
      resize_jpg env file n = Except.ok (some r) →
      generate env url file n = Except.ok (some ⟨n, (env.guetzli r.bytes).output⟩)) ∧
    (∀ env url file n r,
      (lowerStr (splitextExt url) = ".png" ∨ lowerStr (splitextExt url) = ".gif") →
      resize_general env file n = Except.ok (some r) →
      generate env url file n = Except.ok (some ⟨n, (env.guetzli r.bytes).output⟩)) ∧
    (∀ env g2 url file n, (∀ b, (g2 b).output = (env.guetzli b).output) →
      generate { env with guetzli := g2 } url file n = generate env url file n) := by
  refine ⟨?_, ?_, ?_⟩
  · intro env url file n r hext hres
    rw [generate_ext_jpg env url file n hext, hres]
    rfl
  · intro env url file n r hext hres
    rw [generate_ext_general env url file n hext, hres]
    rfl
  · intro env g2 url file n hout
    have hj : resize_jpg { env with guetzli := g2 } file n = resize_jpg env file n := rfl
    have hg : resize_general { env with guetzli := g2 } file n = resize_general env file n := rfl
    by_cases h1 : lowerStr (splitextExt url) = ".jpg"
    · rw [generate_ext_jpg { env with guetzli := g2 } url file n h1,
        generate_ext_jpg env url file n h1, hj]
      cases resize_jpg env file n with
      | error e => rfl
      | ok o =>
        cases o with
        | none => rfl
        | some r =>
          show Except.ok (some (⟨n, optimize { env with guetzli := g2 } r.bytes⟩ : Variant)) =
            Except.ok (some (⟨n, optimize env r.bytes⟩ : Variant))
          rw [show optimize { env with guetzli := g2 } r.bytes = optimize env r.bytes from
            hout r.bytes]
    · by_cases h2 : lowerStr (splitextExt url) = ".png" ∨ lowerStr (splitextExt url) = ".gif"
      · rw [generate_ext_general { env with guetzli := g2 } url file n h2,
          generate_ext_general env url file n h2, hg]
        cases resize_general env file n with
        | error e => rfl
        | ok o =>
          cases o with
          | none => rfl
          | some r =>
            show Except.ok (some (⟨n, optimize { env with guetzli := g2 } r.bytes⟩ : Variant)) =
              Except.ok (some (⟨n, optimize env r.bytes⟩ : Variant))
            rw [show optimize { env with guetzli := g2 } r.bytes = optimize env r.bytes from
              hout r.bytes]
      · rw [not_or] at h2
        rw [generate_ext_other { env with guetzli := g2 } url file n h1 h2.1 h2.2,
          generate_ext_other env url file n h1 h2.1 h2.2]

/-- Witness for the amended C1: the failing optimizer's empty output is
adopted as the variant. -/
theorem optimize_adopts_output_witness :
    generate envFailOpt ("http://e/a.png") (⟨[1]⟩ : SourceFile) 150 =
      Except.ok (some ⟨150, []⟩) :=
  (optimize_adopts_output).2.1 envFailOpt ("http://e/a.png") ⟨[1]⟩ 150
    ⟨(scale_dim 500 400 150).1, (scale_dim 500 400 150).2, [5]⟩ (by decide) (by rfl)

/-- C3 counterexample: the copy to host `h2` exits 1, yet the upload step
reports no error: the run succeeds and the message is deleted — no
`UploadError` and no job failure. -/
theorem scp_failure_not_fatal_cex :
    envScpFail.scpExit ("h2") ("/var/www/danbooru2/shared/data/preview/m.jpg") = 1 ∧
    Effect.scpCopy ("h2") ([6] : Bytes) ("/var/www/danbooru2/shared/data/preview/m.jpg") ∈
      (processMessage envScpFail msgPng).1 ∧
    (processMessage envScpFail msgPng).2 = none ∧
    Effect.deleteMessage ("rh") ∈ (processMessage envScpFail msgPng).1 :=
  ⟨by decide, by decide, by decide, by decide⟩

/-- C3 amended: the replicated upload issues one copy per configured host
and discards every exit code; it has no failure outcome, and the whole
message processing is invariant under any change of the scp exit codes. -/
theorem upload_ignores_copy_failures :
    (∀ env b p, upload env b p = env.servers.map (fun s => Effect.scpCopy s b p)) ∧
    (∀ env f msg, processMessage { env with scpExit := f } msg = processMessage env msg) := by
  constructor
  · exact upload_eq_map
  · intro env f msg
    have hup : ∀ md5 vs, uploadPaths { env with scpExit := f } md5 vs = uploadPaths env md5 vs := by
      intro md5 vs
      induction vs with
      | nil => rfl
      | cons v rest ih =>
        have hu : upload { env with scpExit := f } v.bytes
              ("/var/www/danbooru2/shared/data/preview/" ++ md5 ++ ".jpg") =
            upload env v.bytes ("/var/www/danbooru2/shared/data/preview/" ++ md5 ++ ".jpg") := by
          rw [upload_eq_map, upload_eq_map]
        have hs3 : upload_s3 { env with scpExit := f } v.bytes ("sample-" ++ md5 ++ ".jpg") =
            upload_s3 env v.bytes ("sample-" ++ md5 ++ ".jpg") := rfl
        simp only [uploadPaths, ih, hu, hs3]
    cases hsplit : pySplitComma msg.body with
    | nil => simp only [processMessage, hsplit]
    | cons a t =>
      cases t with
      | nil => simp only [processMessage, hsplit]
      | cons b t2 =>
        cases t2 with
        | cons c t3 => simp only [processMessage, hsplit]
        | nil =>
          have hdag : download_and_generate { env with scpExit := f } b =
              download_and_generate env b := rfl
          cases hdg : download_and_generate env b with
          | error e =>
            rw [processMessage_dag_error { env with scpExit := f } msg a b e hsplit
                (by rw [hdag, hdg]),
              processMessage_dag_error env msg a b e hsplit hdg]
          | ok paths =>
            rw [processMessage_dag_ok { env with scpExit := f } msg a b paths hsplit
                (by rw [hdag, hdg]),
              processMessage_dag_ok env msg a b paths hsplit hdg,
              hup a (paths.filterMap id)]

/-- C4: a fully transparent 1×1 RGBA pixel `(100, 100, 100, 0)` is first
mode-converted to RGB, which discards the alpha channel and keeps the
colour `100`; the composite step then receives a 3-channel buffer and
returns it unchanged. Compositing the RGBA buffer onto white — what the
claim prescribes, and what the helper does when it actually receives four
channels — yields `255` instead: variant generation never composites onto
the white background. -/
theorem alpha_discarded_not_composited :
    convStep imgAlpha = ⟨"RGB", 1, 1, [[100], [100], [100]]⟩ ∧
    pure_pil_alpha_to_color_v2 (convStep imgAlpha) (255, 255, 255) =
      Except.ok ⟨"RGB", 1, 1, [[100], [100], [100]]⟩ ∧
    pure_pil_alpha_to_color_v2 imgAlpha (255, 255, 255) =
      Except.ok ⟨"RGB", 1, 1, [[255], [255], [255]]⟩ ∧
    (100 * 0 + 255 * (255 - 0)) / 255 = 255 ∧
    (([[100], [100], [100]] : List (List Nat)) = [[255], [255], [255]] → False) :=
  ⟨by decide, by rfl, by rfl, by decide, by decide⟩

/-- C5: the alpha-composite step inside variant generation never raises
and always hands back the pre-composite 3-channel buffer unchanged — in
particular `resize_general` can never fail with a paste error, whatever
the alpha data of the decoded image looks like. -/
theorem composite_degrades_gracefully :
    (∀ img, (img.mode = "RGB" → img.channels.length = 3) →
      pure_pil_alpha_to_color_v2 (convStep img) (255, 255, 255) = Except.ok (convStep img)) ∧
    (∀ env file n, EnvWF env →
      resize_general env file n ≠ Except.error PipeErr.pasteError) := by
  constructor
  · exact fun img h => composite_convStep_id img h
  · intro env file n hwf
    cases hdec : env.decodePil file.bytes with
    | none => simp [resize_general, hdec]
    | some img0 =>
      rw [resize_general_decoded env file n img0 hdec (hwf file.bytes img0 hdec)]
      split <;> simp

/-- Witness for C5 at an image whose alpha buffer is malformed. -/
theorem composite_degrades_gracefully_witness :
    pure_pil_alpha_to_color_v2 (convStep imgBadAlpha) (255, 255, 255) =
      Except.ok (convStep imgBadAlpha) ∧
    resize_general envBadAlpha (⟨[1]⟩ : SourceFile) 150 ≠ Except.error PipeErr.pasteError :=
  ⟨(composite_degrades_gracefully).1 imgBadAlpha (by decide),
   (composite_degrades_gracefully).2 envBadAlpha ⟨[1]⟩ 150
     (envWF_of_const imgBadAlpha (by decide) envBadAlpha (fun b => rfl))⟩

/-- C6 counterexample: a complete 404 response — a non-2xx status — is
accepted: its body is streamed into the file and returned as a source
image instead of failing with a fetch error. -/
theorem non2xx_response_accepted_cex :
    env404.http ("http://e/a.png") = NetOutcome.response 404 [[1], [2]] false ∧
    download_image env404 ("http://e/a.png") = Except.ok ⟨[1, 2]⟩ ∧
    ((200 ≤ 404 ∧ 404 ≤ 299) → False) :=
  ⟨rfl, by rfl, by decide⟩

/-- C6 amended: the fetch fails on a network failure and on a truncated
stream, but the HTTP status code is never examined: any completely
streamed response, 2xx or not, yields a source image holding the streamed
body. -/
theorem download_image_status_blind :
    (∀ env url, env.http url = NetOutcome.netError →
      download_image env url = Except.error PipeErr.fetchNet) ∧
    (∀ env url s ch, env.http url = NetOutcome.response s ch true →
      download_image env url = Except.error PipeErr.fetchTruncated) ∧
    (∀ env url s ch, env.http url = NetOutcome.response s ch false →
      download_image env url =
        Except.ok ⟨ch.foldl (fun acc c => if c = [] then acc else acc ++ c) []⟩) := by
  refine ⟨?_, ?_, ?_⟩
  · intro env url h
    simp [download_image, h]
  · intro env url s ch h
    simp [download_image, h]
  · intro env url s ch h
    simp [download_image, h]

/-- Witness for the amended C6: the 404 response still yields the streamed
bytes. -/
theorem download_image_status_blind_witness :
    download_image env404 ("http://e/x.png") = Except.ok ⟨[1, 2]⟩ :=
  (download_image_status_blind).2.2 env404 ("http://e/x.png") 404 [[1], [2]] rfl

end Resampler
